import Mathlib

/-!
Verification of `scripts/generate_ssl_debug_helpers.py` (mbedtls debug-helper
generator).  The Python source is shallowly embedded over `List Char`:
regex-based scanning is translated into deterministic character scanners
(every regex used by the script is deterministic: its alternatives start with
distinct characters and every greedy star is over a character class disjoint
from what follows, so no backtracking can change the outcome), generators
become lists, and the two failure modes (`raise CondDirectiveNotMatch` and the
final `assert not stack`) become an `Option ScanError` component carried next
to the list of yielded items.
-/

set_option maxRecDepth 100000

namespace SslDebugHelpers

/-- The single-quote character (39), kept as a named constant. -/
def singleQuote : Char := Char.ofNat 39

/-- Opening brace character (123). -/
def obr : Char := Char.ofNat 123

/-- Closing brace character (125). -/
def cbr : Char := Char.ofNat 125

/-! ## remove_c_comments

Embedding of `remove_c_comments` (source lines 32-45).  The pattern is
`("..." | '...') | (block comment | line comment)` with MULTILINE and DOTALL,
substituting comments by the empty string and keeping string literals.
`re.sub` scans left to right; at a position where no alternative matches the
scan advances one character.  The lazy `.*?` bodies stop at the first closing
delimiter, and the line comment `//[^\r\n]*$` succeeds only when the run of
non-CR-non-LF characters after `//` ends at a newline or at the end of the
input (a bare carriage return makes it fail). -/

/-- Split `cs` at the first occurrence of character `q`: returns the part up
to and including `q`, and the remainder.  `none` when `q` does not occur. -/
def splitAtChar (q : Char) : List Char → Option (List Char × List Char)
  | [] => none
  | c :: cs =>
    if c = q then some ([c], cs)
    else
      match splitAtChar q cs with
      | some (body, rest) => some (c :: body, rest)
      | none => none

/-- Skip to just after the first `*/` in `cs`; `none` when there is none. -/
def splitAtStarSlash : List Char → Option (List Char)
  | '*' :: '/' :: cs => some cs
  | _ :: cs => splitAtStarSlash cs
  | [] => none

/-- Semantics of `[^\r\n]*$` after a `//`: consume characters up to the first
newline or carriage return.  A newline or end of input means success (the rest
starts at the `$` position, so a newline is not consumed); a carriage return
means match failure. -/
def lineCommentEnd : List Char → Option (List Char)
  | [] => some []
  | c :: cs =>
    if c = '\n' then some (c :: cs)
    else if c = '\r' then none
    else lineCommentEnd cs

/-- One fuelled pass of the comment-removal substitution.  Each step consumes
at least one character, so fuel equal to the input length suffices.  At a
position where no alternative matches (including a quote with no closing
quote, a `/*` with no closing `*/`, or a `//` whose line is cut by a bare
carriage return) the character is copied and the scan retries at the next
position. -/
def rcAux : Nat → List Char → List Char
  | _, [] => []
  | 0, rest => rest
  | Nat.succ n, c :: cs =>
    if c = '"' ∨ c = singleQuote then
      match splitAtChar c cs with
      | some (body, rest) => c :: (body ++ rcAux n rest)
      | none => c :: rcAux n cs
    else if c = '/' ∧ cs.head? = some '*' then
      match splitAtStarSlash cs.tail with
      | some rest => rcAux n rest
      | none => c :: rcAux n cs
    else if c = '/' ∧ cs.head? = some '/' then
      match lineCommentEnd cs.tail with
      | some rest => rcAux n rest
      | none => c :: rcAux n cs
    else c :: rcAux n cs

/-- Embedding of `remove_c_comments` (source lines 32-45). -/
def remove_c_comments (s : List Char) : List Char := rcAux s.length s

/-- `true` when the text contains a `/*` or `//` substring (a comment
opener). -/
def hasCommentOpener : List Char → Bool
  | [] => false
  | c :: cs =>
    (c = '/' && (cs.head? = some '*' || cs.head? = some '/')) || hasCommentOpener cs

/-! ## Python string helpers used by the generator -/

/-- Python `\s` on the ASCII range: space, tab, newline, carriage return,
vertical tab, form feed. -/
def isPyWs (c : Char) : Bool :=
  c = ' ' || c = '\t' || c = '\n' || c = '\r' || c = Char.ofNat 11 || c = Char.ofNat 12

/-- Python `\w` on the ASCII range: letters, digits, underscore. -/
def isWordChar (c : Char) : Bool := c.isAlphanum || c = '_'

/-- Python `str.strip()`: drop leading and trailing whitespace. -/
def pyStrip (l : List Char) : List Char :=
  ((l.dropWhile isPyWs).reverse.dropWhile isPyWs).reverse

/-- Python `str.split(',')`: split at every comma, keeping empty pieces. -/
def pySplitOnComma : List Char → List (List Char)
  | [] => [[]]
  | c :: cs =>
    if c = ',' then [] :: pySplitOnComma cs
    else match pySplitOnComma cs with
      | [] => [[c]]
      | p :: ps => (c :: p) :: ps

/-- Python `str.split()` with no argument: split on runs of whitespace,
dropping empty pieces. -/
def pyWsSplit : List Char → List (List Char)
  | [] => []
  | c :: cs =>
    if isPyWs c then pyWsSplit cs
    else match pyWsSplit cs with
      | [] => [[c]]
      | p :: ps =>
        match cs with
        | [] => [[c]]
        | d :: _ => if isPyWs d then [c] :: p :: ps else (c :: p) :: ps

/-- Line boundary characters recognised by Python `str.splitlines` (ASCII
range plus NEL). -/
def isLineBoundary (c : Char) : Bool :=
  c = '\n' || c = '\r' || c = Char.ofNat 11 || c = Char.ofNat 12 ||
  c = Char.ofNat 28 || c = Char.ofNat 29 || c = Char.ofNat 30 || c = Char.ofNat 133

/-- Fuelled worker for `pySplitlines`. -/
def pySplitlinesGo : Nat → List Char → List (List Char)
  | _, [] => []
  | 0, rest => [rest]
  | Nat.succ n, cs =>
    let line := cs.takeWhile (fun c => !isLineBoundary c)
    let rest := cs.dropWhile (fun c => !isLineBoundary c)
    match rest with
    | [] => [line]
    | c :: r =>
      if c = '\r' then
        match r with
        | c2 :: r2 => if c2 = '\n' then line :: pySplitlinesGo n r2 else line :: pySplitlinesGo n r
        | [] => [line]
      else line :: pySplitlinesGo n r

/-- Python `str.splitlines()`: split at line boundaries, treating `\r\n` as a
single boundary; the empty string gives no lines. -/
def pySplitlines (cs : List Char) : List (List Char) :=
  pySplitlinesGo (cs.length + 1) cs

/-- Python `str.lower()` on the ASCII range. -/
def pyLowerChar (c : Char) : Char :=
  if 'A' ≤ c && c ≤ 'Z' then Char.ofNat (c.toNat + 32) else c

/-- Lowercase every character of a string (ASCII range). -/
def pyLower (s : String) : String := String.mk (s.data.map pyLowerChar)

/-! ## Conditional directive matching

Embedding of the directive pattern of `preprocess_c_source_code`
(source lines 65-68):
`^[ \t]*#[ \t]*(if[ \t]|ifndef[ \t]|ifdef[ \t]|else|endif)[ \t]*((.*\\\n)*.*$)`
with MULTILINE.  A match starts at a line start; `if`, `ifndef` and `ifdef`
must be followed by a space or tab; the parameter extends over
backslash-continued lines and the match ends just before the final line's
newline. -/

/-- One scanned conditional directive, and equally one stack frame of the
scan: the Python code stores the same 4-tuple
`(directive, param, start, end)` in both roles. -/
structure CondDirective where
  directive : String
  param : String
  start : Nat
  stop : Nat
deriving DecidableEq, Repr

/-- `c` is a space or a tab. -/
def isHT (c : Char) : Bool := c = ' ' || c = '\t'

/-- Recognise the directive keyword alternation
`if[ \t]|ifndef[ \t]|ifdef[ \t]|else|endif` (in this order) at the head of
`cs`; returns the stripped keyword and the rest. -/
def dirKeyword : List Char → Option (String × List Char)
  | 'i' :: 'f' :: rest =>
    (match rest with
     | c :: r2 =>
       if isHT c then some ("if", r2)
       else
         match rest with
         | 'n' :: 'd' :: 'e' :: 'f' :: c2 :: r3 => if isHT c2 then some ("ifndef", r3) else none
         | 'd' :: 'e' :: 'f' :: c2 :: r3 => if isHT c2 then some ("ifdef", r3) else none
         | _ => none
     | [] => none)
  | 'e' :: 'l' :: 's' :: 'e' :: rest => some ("else", rest)
  | 'e' :: 'n' :: 'd' :: 'i' :: 'f' :: rest => some ("endif", rest)
  | _ => none

/-- Scan the parameter `(.*\\\n)*.*$`: chunks of whole lines ending in a
backslash (backslash and newline belong to the parameter), then the rest of
the final line.  Returns the parameter text, the offset of the match end
(just before the final newline) and the text after that newline (`none` at
end of input). -/
def scanParam : Nat → List Char → Nat → List Char × Nat × Option (List Char)
  | fuel, cs, pos =>
    let seg := cs.takeWhile (fun c => !(c = '\n'))
    let rest := cs.dropWhile (fun c => !(c = '\n'))
    match rest with
    | [] => (seg, pos + seg.length, none)
    | _ :: r =>
      if seg.getLast? = some '\\' then
        match fuel with
        | 0 => (seg, pos + seg.length, some r)
        | Nat.succ fuel2 =>
          let res := scanParam fuel2 r (pos + seg.length + 1)
          (seg ++ '\n' :: res.1, res.2.1, res.2.2)
      else (seg, pos + seg.length, some r)

/-- Try to match the directive pattern at a line start at offset `o`.
Returns the directive together with the rest of the input after the matched
line(s) (`none` at end of input) and the offset of that rest. -/
def tryDirective (cs : List Char) (o : Nat) : Option (CondDirective × Option (List Char) × Nat) :=
  let r1 := cs.dropWhile isHT
  match r1 with
  | c :: r2 =>
    if c = '#' then
      let r3 := r2.dropWhile isHT
      match dirKeyword r3 with
      | some (d, r4) =>
        let r5 := r4.dropWhile isHT
        let pos5 := o + (cs.length - r5.length)
        let res := scanParam r5.length r5 pos5
        match res.2.2 with
        | none => some (⟨d, String.mk res.1, o, res.2.1⟩, none, res.2.1 + 1)
        | some r => some (⟨d, String.mk res.1, o, res.2.1⟩, some r, res.2.1 + 1)
      | none => none
    else none
  | [] => none

/-- Fuelled worker for `findDirectives`: walk the input line by line,
collecting directive matches.  `cs` is always positioned at a line start of
offset `o`. -/
def findDirectivesGo : Nat → List Char → Nat → List CondDirective
  | _, [], _ => []
  | 0, _, _ => []
  | Nat.succ fuel, cs, o =>
    match tryDirective cs o with
    | some (dm, none, _) => [dm]
    | some (dm, some rest, o2) => dm :: findDirectivesGo fuel rest o2
    | none =>
      let seg := cs.takeWhile (fun c => !(c = '\n'))
      let rest := cs.dropWhile (fun c => !(c = '\n'))
      match rest with
      | [] => []
      | _ :: r => findDirectivesGo fuel r (o + seg.length + 1)

/-- All conditional-directive matches of the source, in order: the
`pattern.finditer(source)` loop of `preprocess_c_source_code`. -/
def findDirectives (s : List Char) : List CondDirective :=
  findDirectivesGo (s.length + 1) s 0

/-! ## Entity extractors -/

/-- An extracted entity: an enum definition (`EnumDefinition.__init__`,
keeping name, prototype, body and span), a merged group of
signature-algorithm defines (`SignatureAlgorithmDefinition`, keeping the
matched names and the span of the first match), or the `AssertionError`
raised by `EnumDefinition.__init__` (source lines 172-173) on a match whose
prefix and suffix names are both empty or whose body is empty: the
exception is carried as a marker so the scan can be cut off at the exact
point where the program's generator raises. -/
inductive Entity where
  | enumDef (name prototype body : String) (start stop : Nat)
  | sigDef (names : List String) (start stop : Nat)
  | malformedEnum (start stop : Nat)
deriving DecidableEq, Repr

/-- Start offset of an entity's span (`instance.span()[0]`). -/
def Entity.start : Entity → Nat
  | .enumDef _ _ _ s _ => s
  | .sigDef _ s _ => s
  | .malformedEnum s _ => s

/-- Whether an entity is the marker for a failed
`EnumDefinition.__init__` assertion. -/
def Entity.isMalformed : Entity → Bool
  | .malformedEnum _ _ => true
  | _ => false

/-- Match the enum pattern
`enum\s*(\w*)\s*{\s*([^}]*)}\s*(\w*)\s*;` at the head of `cs`; returns
prefix name, body, suffix name and the match length. -/
def enumMatchAt (cs : List Char) : Option (List Char × List Char × List Char × Nat) :=
  match cs with
  | 'e' :: 'n' :: 'u' :: 'm' :: r0 =>
    let r1 := r0.dropWhile isPyWs
    let pre := r1.takeWhile isWordChar
    let r2 := r1.dropWhile isWordChar
    let r3 := r2.dropWhile isPyWs
    match r3 with
    | c4 :: r4 =>
      if c4 = obr then
        let r5 := r4.dropWhile isPyWs
        let body := r5.takeWhile (fun c => !(c = cbr))
        let r6 := r5.dropWhile (fun c => !(c = cbr))
        match r6 with
        | _ :: r7 =>
          let r8 := r7.dropWhile isPyWs
          let suff := r8.takeWhile isWordChar
          let r9 := r8.dropWhile isWordChar
          let r10 := r9.dropWhile isPyWs
          match r10 with
          | ';' :: r11 => some (pre, body, suff, cs.length - r11.length)
          | _ => none
        | [] => none
      else none
    | [] => none
  | _ => none

/-- Build the entity recorded by `EnumDefinition.__init__` (source lines
167-180).  The constructor first runs `assert prefix_name or suffix_name`
and `assert body` (lines 172-173): a match with both names empty or with an
empty body raises `AssertionError`, modelled by the `malformedEnum` marker.
Otherwise, when the suffix name is present the definition is a typedef, so
both the name and the prototype are the suffix; when it is absent the name
is the prefix and the prototype is `enum ` + prefix. -/
def mkEnumEntity (pre body suff : List Char) (s e : Nat) : Entity :=
  if (pre.isEmpty && suff.isEmpty) || body.isEmpty then .malformedEnum s e
  else if suff ≠ [] then .enumDef (String.mk suff) (String.mk suff) (String.mk body) s e
  else .enumDef (String.mk pre) ("enum " ++ String.mk pre) (String.mk body) s e

/-- Fuelled scan for enum matches over a slice, with absolute offsets.  The
`extract` generator constructs an `EnumDefinition` per match as it is
consumed, so on the first match whose constructor assertion fails the
exception marker ends the stream: no later match is ever produced. -/
def enumExtractGo : Nat → List Char → Nat → List Entity
  | _, [], _ => []
  | 0, _, _ => []
  | Nat.succ fuel, cs, abs =>
    match enumMatchAt cs with
    | some (pre, body, suff, len) =>
      match mkEnumEntity pre body suff abs (abs + len) with
      | .malformedEnum s e => [.malformedEnum s e]
      | ent => ent :: enumExtractGo fuel (cs.drop len) (abs + len)
    | none => enumExtractGo fuel cs.tail (abs + 1)

/-- Embedding of `EnumDefinition.extract` (source lines 155-165): scan the
region `[st, en)` of the source for enum definitions. -/
def enum_extract (src : List Char) (st en : Nat) : List Entity :=
  let slice := (src.drop st).take (en - st)
  enumExtractGo (slice.length + 1) slice st

/-- The fixed signature-algorithm macro name stem. -/
def sigStemChars : List Char := "MBEDTLS_TLS1_3_SIG_".data

/-- Hexadecimal digit test for `[0-9a-fA-F]`. -/
def isHexDigitChar (c : Char) : Bool :=
  c.isDigit || ('a' ≤ c && c ≤ 'f') || ('A' ≤ c && c ≤ 'F')

/-- Drop a literal character sequence from the head of a list. -/
def dropLit : List Char → List Char → Option (List Char)
  | [], cs => some cs
  | _ :: _, [] => none
  | l :: ls, c :: cs => if c = l then dropLit ls cs else none

/-- Match the pattern
`#define\s+(MBEDTLS_TLS1_3_SIG_\w+)\s+(0[xX][0-9a-fA-F]+)$` at the head of
`cs` (MULTILINE: `$` is end of input or just before a newline); returns the
full macro name and the match length. -/
def sigMatchAt (cs : List Char) : Option (List Char × Nat) :=
  match dropLit "#define".data cs with
  | none => none
  | some r0 =>
    if (r0.takeWhile isPyWs).isEmpty then none
    else
      let r1 := r0.dropWhile isPyWs
      match dropLit sigStemChars r1 with
      | none => none
      | some r2 =>
        let sufx := r2.takeWhile isWordChar
        if sufx.isEmpty then none
        else
          let r3 := r2.dropWhile isWordChar
          if (r3.takeWhile isPyWs).isEmpty then none
          else
            let r4 := r3.dropWhile isPyWs
            match r4 with
            | '0' :: x :: r5 =>
              if x = 'x' ∨ x = 'X' then
                let hx := r5.takeWhile isHexDigitChar
                if hx.isEmpty then none
                else
                  let r6 := r5.dropWhile isHexDigitChar
                  if r6.isEmpty || r6.head? = some '\n' then
                    some (sigStemChars ++ sufx, cs.length - r6.length)
                  else none
              else none
            | _ => none

/-- Fuelled scan for signature-algorithm matches over a slice: returns
(name, start, stop) for each match, with absolute offsets. -/
def sigMatchesGo : Nat → List Char → Nat → List (List Char × Nat × Nat)
  | _, [], _ => []
  | 0, _, _ => []
  | Nat.succ fuel, cs, abs =>
    match sigMatchAt cs with
    | some (name, len) => (name, abs, abs + len) :: sigMatchesGo fuel (cs.drop len) (abs + len)
    | none => sigMatchesGo fuel cs.tail (abs + 1)

/-- Embedding of `SignatureAlgorithmDefinition.extract` (source lines
249-256): find all matches in the region; when at least one exists, yield a
single entity carrying every matched name, whose span is the span of the
first match. -/
def sig_extract (src : List Char) (st en : Nat) : List Entity :=
  let slice := (src.drop st).take (en - st)
  let ms := sigMatchesGo (slice.length + 1) slice st
  match ms with
  | [] => []
  | (_, s0, e0) :: _ => [.sigDef (ms.map (fun m => String.mk m.1)) s0 e0]

/-- The type of an extractor class's `extract` method: source, region start,
region end, to the list of extracted entities. -/
abbrev ExtractorFn := List Char → Nat → Nat → List Entity

/-- The registration order used by `generate_ssl_debug_helpers` (source
lines 343-345): `EnumDefinition` first, then
`SignatureAlgorithmDefinition`. -/
def theClasses : List ExtractorFn := [enum_extract, sig_extract]

/-! ## The preprocessing scan -/

/-- An item yielded by `preprocess_c_source_code`: either a guard text line
(`start_line` / `end_line` of `_yield_objects`, possibly the empty string)
or an extracted entity. -/
inductive Item where
  | line (s : String)
  | ent (e : Entity)
deriving DecidableEq, Repr

/-- The two ways the scan of `preprocess_c_source_code` can fail:
`raise CondDirectiveNotMatch()` (line 106) on an `else`/`endif` with an
empty stack, and the failure of `assert not stack` (line 129) at end of
input. -/
inductive ScanError where
  | condDirectiveNotMatch
  | assertionFailed
deriving DecidableEq, Repr

/-- The instances collected by the `for cls in classes` loop of
`_yield_objects`: each class scans the region, in registration order. -/
def classInstances (classes : List ExtractorFn) (src : List Char) (st en : Nat) : List Entity :=
  classes.flatMap (fun cls => cls src st en)

/-- Embedding of `_yield_objects` (source lines 71-93), called after the
frame `(d, p, pairStart, regionStart)` has been popped: `stackEmpty` tells
whether the remaining stack is empty, in which case both guard lines are the
empty string; `closeStart` is the start offset of the closing directive.
When at least one instance is found the yields are the opening guard at the
popped frame's start, each instance at its own span start, and the closing
guard at the closing directive's start.  When an instance is the
`AssertionError` marker, the generator raises while being consumed: the
yields are exactly those already produced — the opening guard and the
instances before the marker, nothing at all when the marker is first — and
the marker closes the stream (no closing guard, no later extractor). -/
def yieldObjects (classes : List ExtractorFn) (src : List Char) (d p : String)
    (pairStart regionStart closeStart : Nat) (stackEmpty : Bool) : List (Nat × Item) :=
  let startLine : String := if stackEmpty then "" else "#" ++ d ++ " " ++ p
  let endLine : String :=
    if stackEmpty then ""
    else if d = "if" then "#endif /* " ++ p ++ " */"
    else if d = "ifdef" then "#endif /* defined(" ++ p ++ ") */"
    else "#endif /* !defined(" ++ p ++ ") */"
  match classInstances classes src regionStart closeStart with
  | [] => []
  | insts =>
    let goods := insts.takeWhile (fun e => !e.isMalformed)
    match (insts.dropWhile (fun e => !e.isMalformed)).head? with
    | none =>
      (pairStart, Item.line startLine) ::
        (goods.map (fun e => (e.start, Item.ent e)) ++ [(closeStart, Item.line endLine)])
    | some mk =>
      if goods.isEmpty then [(mk.start, Item.ent mk)]
      else
        (pairStart, Item.line startLine) ::
          (goods.map (fun e => (e.start, Item.ent e)) ++ [(mk.start, Item.ent mk)])

/-- Directive membership test of line 101:
`directive in ('if', 'ifndef', 'ifdef')`. -/
def isOpener (m : CondDirective) : Bool :=
  m.directive == "if" || m.directive == "ifndef" || m.directive == "ifdef"

/-- Embedding of lines 118-127: the replacement frame pushed when an `else`
pops the frame `f`; `s`/`e` are the span of the `else` match. -/
def elseReplacement (f : CondDirective) (s e : Nat) : CondDirective :=
  if f.directive = "if" then ⟨"if", "!( " ++ f.param ++ " )", s, e⟩
  else if f.directive = "ifdef" then ⟨"ifndef", f.param, s, e⟩
  else ⟨"ifdef", f.param, s, e⟩

/-- The directive loop of `preprocess_c_source_code` (source lines 95-129)
over the already-found directive matches, carrying the frame stack.  The
first component collects every yielded item; the second reports the failure,
if any: `condDirectiveNotMatch` when an `else`/`endif` finds an empty stack,
`assertionFailed` when input ends with a non-empty stack. -/
def scanLoop (classes : List ExtractorFn) (src : List Char) :
    List CondDirective → List CondDirective → List (Nat × Item) × Option ScanError
  | [], [] => ([], none)
  | [], _ :: _ => ([], some ScanError.assertionFailed)
  | m :: rest, [] =>
    if isOpener m then scanLoop classes src rest (m :: [])
    else ([], some ScanError.condDirectiveNotMatch)
  | m :: rest, f :: stack2 =>
    if isOpener m then scanLoop classes src rest (m :: f :: stack2)
    else if m.directive = "endif" then
      let r := scanLoop classes src rest stack2
      (yieldObjects classes src f.directive f.param f.start f.stop m.start stack2.isEmpty ++ r.1, r.2)
    else
      let r := scanLoop classes src rest (elseReplacement f m.start m.stop :: stack2)
      (yieldObjects classes src f.directive f.param f.start f.stop m.start stack2.isEmpty ++ r.1, r.2)

/-- An item that carries the `EnumDefinition.__init__` assertion marker. -/
def isAssertItem : Nat × Item → Bool
  | (_, Item.ent (Entity.malformedEnum _ _)) => true
  | _ => false

/-- Exception propagation for the generator: a raised
`EnumDefinition.__init__` assertion ends the whole scan at the point where
it is consumed, so the observable yields are the items before the first
assertion marker and the failure is the `AssertionError`; without a marker
the scan is unchanged. -/
def truncateAtAssert (r : List (Nat × Item) × Option ScanError) :
    List (Nat × Item) × Option ScanError :=
  if r.1.any isAssertItem then
    (r.1.takeWhile (fun x => !isAssertItem x), some ScanError.assertionFailed)
  else r

/-- Embedding of `preprocess_c_source_code` (source lines 52-129): the
directive scan over the found matches, cut off at the first entity
constructor assertion. -/
def preprocess_c_source_code (classes : List ExtractorFn) (src : List Char) :
    List (Nat × Item) × Option ScanError :=
  truncateAtAssert (scanLoop classes src (findDirectives src) [])

/-! ## Code generation -/

/-- The table lines contributed by one line of an enum body
(`generate_translation_function`, source lines 197-214): a stripped line
starting with `#` is kept verbatim; an empty line contributes nothing;
otherwise each non-empty comma-separated field contributes a designated
initialiser for its first token. -/
def enumTableLine (line : List Char) : List String :=
  let s := pyStrip line
  if s.head? = some '#' then [String.mk s]
  else if s.isEmpty then []
  else
    (pySplitOnComma s).filterMap (fun field =>
      let f := pyStrip field
      if f.isEmpty then none
      else
        match pyWsSplit f with
        | [] => none
        | t :: _ => some ("        [" ++ String.mk t ++ "] = \"" ++ String.mk t ++ "\","))

/-- The full translation table of `generate_translation_function`. -/
def enumTable (body : String) : List String :=
  (pySplitlines body.data).flatMap enumTableLine

/-- Embedding of `EnumDefinition.generate_translation_function` (source
lines 191-235): the dedented template with name, prototype and translation
table substituted.  The out-of-range / null-slot branch returns the literal
sentinel string `UNKOWN_VAULE` exactly as spelled in the source. -/
def generate_translation_function (name prototype body : String) : String :=
  "const char *" ++ name ++ "_str( " ++ prototype ++ " in )\n" ++
  "\x7b\n" ++
  "    const char * in_to_str[]=\n" ++
  "    \x7b\n" ++
  String.intercalate "\n" (enumTable body) ++ "\n" ++
  "    \x7d;\n" ++
  "\n" ++
  "    if( in > ( sizeof( in_to_str )/sizeof( in_to_str[0]) - 1 ) ||\n" ++
  "        in_to_str[ in ] == NULL )\n" ++
  "    \x7b\n" ++
  "        return \"UNKOWN_VAULE\";\n" ++
  "    \x7d\n" ++
  "    return in_to_str[ in ];\n" ++
  "\x7d\n"

/-- One case of the signature-algorithm switch (source lines 275-280): the
macro name literal, returning the lowercased suffix after the 19-character
stem `MBEDTLS_TLS1_3_SIG_`. -/
def sigCase (name : String) : String :=
  "\tcase " ++ name ++ ":\n\t    return \"" ++ pyLower (name.drop 19) ++ "\";"

/-- Embedding of `SignatureAlgorithmDefinition.__str__` (source lines
270-293): the dedented switch template; the no-match branch returns the
literal sentinel string `UNKOWN` exactly as spelled in the source. -/
def sigGenerate (names : List String) : String :=
  "const char *mbedtls_ssl_sig_alg_to_str( uint16_t in )\n" ++
  "\x7b\n" ++
  "    switch( in )\n" ++
  "    \x7b\n" ++
  String.intercalate "\n" (names.map sigCase) ++ "\n" ++
  "    \x7d;\n" ++
  "\n" ++
  "    return \"UNKOWN\";\n" ++
  "\x7d"

/-- The text an entity contributes to the output (the emit loop of
`generate_ssl_debug_helpers`, lines 348-352): enums via
`generate_translation_function`, signature-algorithm groups via `str`.  The
assertion marker never reaches the emit loop in the program — the scan
raises before it could be yielded — so its text is arbitrary (empty). -/
def entityText : Entity → String
  | .enumDef n p b _ _ => generate_translation_function n p b
  | .sigDef names _ _ => sigGenerate names
  | .malformedEnum _ _ => ""

/-- The text stored in the `definitions` dict for a yielded item. -/
def itemText : Item → String
  | .line s => s
  | .ent e => entityText e

/-- The `definitions` dict built by `generate_ssl_debug_helpers` (source
lines 342-352), as an association list in insertion order: a yielded item
whose start offset is already present is skipped (`if start in definitions:
continue`), otherwise its text is appended. -/
def collectDefs : List (Nat × Item) → List (Nat × String) → List (Nat × String)
  | [], acc => acc
  | (k, it) :: rest, acc =>
    if acc.any (fun p => p.1 == k) then collectDefs rest acc
    else collectDefs rest (acc ++ [(k, itemText it)])

/-- Insert into a key-sorted association list, keeping ascending key
order. -/
def insertByKey (x : Nat × String) : List (Nat × String) → List (Nat × String)
  | [] => [x]
  | y :: ys => if x.1 ≤ y.1 then x :: y :: ys else y :: insertByKey x ys

/-- `sorted(definitions.items())` (line 354): sort the association list by
key (keys are distinct, so tuple order is key order). -/
def sortByKey (l : List (Nat × String)) : List (Nat × String) :=
  l.foldr insertByKey []

/-- The ordered function texts of `generate_ssl_debug_helpers` (line 354):
first-wins per-offset deduplication, then ascending key order. -/
def generate_output (items : List (Nat × Item)) : List String :=
  (sortByKey (collectDefs items [])).map Prod.snd

/-! ## Spec-side definitions, for refinement comparisons -/

/-- Transcription of the spec's GuardText table (spec §3): negating an `if`
wraps the original parameter in `!( … )`; the `else` of an `ifdef` becomes
`ifndef` with the same parameter, and vice versa. -/
def elseComplementSpec (f : CondDirective) (s e : Nat) : CondDirective :=
  if f.directive = "if" then ⟨"if", "!( " ++ f.param ++ " )", s, e⟩
  else if f.directive = "ifdef" then ⟨"ifndef", f.param, s, e⟩
  else if f.directive = "ifndef" then ⟨"ifdef", f.param, s, e⟩
  else f

/-- Transcription of the spec's deduplication rule (spec §3 invariant (d)
and §4.5): keep each yielded item whose start offset has not appeared
earlier in the yield sequence, in first-encounter order. -/
def firstOccurrences : List (Nat × Item) → List (Nat × String)
  | [] => []
  | (k, it) :: rest =>
    (k, itemText it) :: firstOccurrences (rest.filter (fun p => !(p.1 == k)))
termination_by l => l.length
decreasing_by
  simp only [List.length_cons]
  exact Nat.lt_succ_of_le (List.length_filter_le _ _)

/-- Number of opening directives in a list of matches. -/
def countOpeners (l : List CondDirective) : Nat := (l.filter isOpener).length

/-- Number of `endif` directives in a list of matches. -/
def countEndifs (l : List CondDirective) : Nat :=
  (l.filter (fun m => m.directive == "endif")).length

/-- The directive list contains an `else`/`endif` at a point where every
preceding opener is already matched (the stack would be empty there):
an `else` pops and pushes, so only openers and `endif`s change the depth. -/
def hasUnderflow (dirs : List CondDirective) : Prop :=
  ∃ p m rest, dirs = p ++ m :: rest ∧ isOpener m = false ∧ countOpeners p ≤ countEndifs p

/-! ## Concrete inputs used by the claims -/

/-- Input with entities outside every directive frame: one enum before a
balanced (empty) conditional block and one after it. -/
def srcTop : List Char :=
  "enum \x7b A \x7d E;\n#ifdef X\n#endif\nenum \x7b B \x7d F;\n".data

/-- Top-level `#ifdef X … #else … #endif` pair with one enum per branch. -/
def srcPair : List Char :=
  "#ifdef X\nenum \x7b A \x7d E;\n#else\nenum \x7b B \x7d F;\n#endif\n".data

/-- The same `#ifdef X … #else … #endif` pair, enclosed in an outer
`#ifndef H` frame. -/
def srcPairGuarded : List Char :=
  "#ifndef H\n#ifdef X\nenum \x7b A \x7d E;\n#else\nenum \x7b B \x7d F;\n#endif\n#endif\n".data

/-- An opener that is never closed. -/
def srcUnclosed : List Char := "#ifdef A\nint x;\n".data

/-- An input whose second `#endif` underflows the stack, but whose first
pop scans a region holding an enum with both names empty: the entity
constructor's assertion fires during the first pop, before the underflow
is reached. -/
def srcAssertUnderflow : List Char := "#ifdef A\nenum \x7bX\x7d;\n#endif\n#endif\n".data

/-- An enum nested under three directive frames (`H`, `A`, `B`). -/
def srcNested : List Char :=
  "#ifndef H\n#ifdef A\n#ifdef B\nenum \x7b X \x7d E;\n#endif\n#endif\n#endif\n".data

/-- The entity extracted from the nested enum of `srcNested`. -/
def nestedEnum : Entity := Entity.enumDef "E" "E" "X " 28 41

/-- The spec's enum example input. -/
def srcEnumExample : List Char :=
  "typedef enum \x7b RED, GREEN, BLUE \x7d Color;".data

/-- The spec's signature-algorithm example input. -/
def srcSigExample : List Char :=
  "#define MBEDTLS_TLS1_3_SIG_FOO 0x01\n#define MBEDTLS_TLS1_3_SIG_BAR_BAZ 0x02\n".data

/-! ## Helper lemmas -/

/-- A successful `splitAtChar` partitions its input. -/
theorem splitAtChar_eq (q : Char) :
    ∀ (cs b r : List Char), splitAtChar q cs = some (b, r) → cs = b ++ r := by
  intro cs
  induction cs with
  | nil => intro b r h; simp [splitAtChar] at h
  | cons c cs ih =>
    intro b r h
    simp only [splitAtChar] at h
    split at h
    · rw [Option.some.injEq, Prod.mk.injEq] at h
      rw [← h.1, ← h.2]
      rfl
    · cases hsp : splitAtChar q cs with
      | none => rw [hsp] at h; exact absurd h (by simp)
      | some p =>
        rw [hsp] at h
        rw [Option.some.injEq, Prod.mk.injEq] at h
        rw [← h.1, ← h.2]
        have := ih p.1 p.2 (by rw [hsp])
        simp [← this]

/-- An opener-free text stays opener-free when a front part is removed. -/
theorem hasCommentOpener_append (xs ys : List Char)
    (h : hasCommentOpener (xs ++ ys) = false) : hasCommentOpener ys = false := by
  induction xs with
  | nil => simpa using h
  | cons x xs ih =>
    simp only [List.cons_append, hasCommentOpener, Bool.or_eq_false_iff] at h
    exact ih h.2

/-- The comment-removal pass is the identity on texts containing no `/*`
and no `//` substring, for any sufficient fuel. -/
theorem rcAux_id : ∀ (n : Nat) (t : List Char),
    t.length ≤ n → hasCommentOpener t = false → rcAux n t = t := by
  intro n
  induction n with
  | zero =>
    intro t ht _
    rw [List.eq_nil_of_length_eq_zero (Nat.le_zero.mp ht)]
    rfl
  | succ n ih =>
    intro t ht hop
    match t with
    | [] => rfl
    | c :: cs =>
      have hlen : cs.length ≤ n := by simpa using ht
      simp only [hasCommentOpener, Bool.or_eq_false_iff] at hop
      simp only [rcAux]
      by_cases hq : c = '"' ∨ c = singleQuote
      · rw [if_pos hq]
        cases hsp : splitAtChar c cs with
        | none => rw [ih cs hlen hop.2]
        | some p =>
          obtain ⟨b, r⟩ := p
          have hpart := splitAtChar_eq c cs b r hsp
          have hrest : hasCommentOpener r = false :=
            hasCommentOpener_append b r (by rw [← hpart]; exact hop.2)
          have hrlen : r.length ≤ n := by
            have : r.length ≤ cs.length := by
              rw [hpart, List.length_append]; omega
            omega
          show c :: (b ++ rcAux n r) = c :: cs
          rw [ih r hrlen hrest, List.cons.injEq]
          exact ⟨rfl, hpart.symm⟩
      · have h1 : ¬ (c = '/' ∧ cs.head? = some '*') := by
          rintro ⟨hc, hh⟩
          rw [hc, hh] at hop
          simp at hop
        have h2 : ¬ (c = '/' ∧ cs.head? = some '/') := by
          rintro ⟨hc, hh⟩
          rw [hc, hh] at hop
          simp at hop
        rw [if_neg hq, if_neg h1, if_neg h2, ih cs hlen hop.2]

/-- An opener is not an `endif`. -/
theorem opener_ne_endif (m : CondDirective) (h : isOpener m = true) :
    (m.directive == "endif") = false := by
  simp only [isOpener, Bool.or_eq_true, beq_iff_eq] at h
  obtain (h | h) | h := h <;> rw [h] <;> rfl

/-- Scan-loop step on an opening directive: push the match. -/
theorem scanLoop_opener (classes : List ExtractorFn) (src : List Char)
    (m : CondDirective) (rest stack : List CondDirective) (h : isOpener m = true) :
    scanLoop classes src (m :: rest) stack = scanLoop classes src rest (m :: stack) := by
  cases stack <;> simp [scanLoop, h]

/-- Scan-loop step on an `else`/`endif` with an empty stack: the scan fails
with `CondDirectiveNotMatch` and yields nothing. -/
theorem scanLoop_closerNil (classes : List ExtractorFn) (src : List Char)
    (m : CondDirective) (rest : List CondDirective) (h : isOpener m = false) :
    scanLoop classes src (m :: rest) [] = ([], some ScanError.condDirectiveNotMatch) := by
  simp [scanLoop, h]

/-- Scan-loop step on an `endif` with a non-empty stack: pop, emit the
completed scope, and continue without pushing a replacement. -/
theorem scanLoop_endif (classes : List ExtractorFn) (src : List Char)
    (m : CondDirective) (rest : List CondDirective) (f : CondDirective)
    (stack2 : List CondDirective) (h : isOpener m = false) (h2 : m.directive = "endif") :
    scanLoop classes src (m :: rest) (f :: stack2) =
      (yieldObjects classes src f.directive f.param f.start f.stop m.start stack2.isEmpty ++
        (scanLoop classes src rest stack2).1,
       (scanLoop classes src rest stack2).2) := by
  simp [scanLoop, h, h2]

/-- Scan-loop step on an `else` (any non-opener other than `endif`) with a
non-empty stack: pop, emit the completed scope, and push the complementary
replacement frame computed by `elseReplacement`. -/
theorem scanLoop_else (classes : List ExtractorFn) (src : List Char)
    (m : CondDirective) (rest : List CondDirective) (f : CondDirective)
    (stack2 : List CondDirective) (h : isOpener m = false) (h2 : ¬ m.directive = "endif") :
    scanLoop classes src (m :: rest) (f :: stack2) =
      (yieldObjects classes src f.directive f.param f.start f.stop m.start stack2.isEmpty ++
        (scanLoop classes src rest (elseReplacement f m.start m.stop :: stack2)).1,
       (scanLoop classes src rest (elseReplacement f m.start m.stop :: stack2)).2) := by
  simp [scanLoop, h, h2]

/-- If the directive list decomposes as openers-balanced-by-endifs followed
by a non-opener, the scan loop reports `CondDirectiveNotMatch`, whatever the
extractors, the source and the items already yielded. -/
theorem scanLoop_underflow (classes : List ExtractorFn) (src : List Char) :
    ∀ (dirs stack : List CondDirective),
      (∃ p m rest, dirs = p ++ m :: rest ∧ isOpener m = false ∧
          countOpeners p + stack.length ≤ countEndifs p) →
      (scanLoop classes src dirs stack).2 = some ScanError.condDirectiveNotMatch := by
  intro dirs
  induction dirs with
  | nil =>
    rintro stack ⟨p, m, rest, habs, -, -⟩
    cases p <;> simp at habs
  | cons d ds ih =>
    rintro stack ⟨p, m, rest, heq, hm, hcount⟩
    cases p with
    | nil =>
      injection heq with h1 h2
      subst h1
      have hstack : stack = [] := by
        simp only [countOpeners, countEndifs, List.filter_nil, List.length_nil,
          Nat.zero_add, Nat.le_zero] at hcount
        exact List.eq_nil_of_length_eq_zero hcount
      subst hstack
      rw [scanLoop_closerNil classes src d ds hm]
    | cons q p2 =>
      injection heq with h1 h2
      subst h1
      by_cases hq : isOpener d = true
      · have hne : (d.directive == "endif") = false := opener_ne_endif d hq
        have hco : countOpeners (d :: p2) = countOpeners p2 + 1 := by
          simp [countOpeners, List.filter_cons, hq]
        have hce : countEndifs (d :: p2) = countEndifs p2 := by
          simp [countEndifs, List.filter_cons, hne]
        rw [scanLoop_opener classes src d ds stack hq]
        exact ih (d :: stack) ⟨p2, m, rest, h2, hm, by
          rw [hco, hce] at hcount; simp only [List.length_cons]; omega⟩
      · have hq0 : isOpener d = false := by
          cases h : isOpener d
          · rfl
          · exact absurd h hq
        have hco : countOpeners (d :: p2) = countOpeners p2 := by
          simp [countOpeners, List.filter_cons, hq0]
        cases stack with
        | nil => rw [scanLoop_closerNil classes src d ds hq0]
        | cons f stack2 =>
          by_cases hend : d.directive = "endif"
          · have hce : countEndifs (d :: p2) = countEndifs p2 + 1 := by
              simp [countEndifs, List.filter_cons, hend]
            rw [scanLoop_endif classes src d ds f stack2 hq0 hend]
            exact ih stack2 ⟨p2, m, rest, h2, hm, by
              rw [hco, hce] at hcount; simp only [List.length_cons] at hcount; omega⟩
          · have hce : countEndifs (d :: p2) = countEndifs p2 := by
              simp [countEndifs, List.filter_cons, hend]
            rw [scanLoop_else classes src d ds f stack2 hq0 hend]
            exact ih (elseReplacement f d.start d.stop :: stack2) ⟨p2, m, rest, h2, hm, by
              rw [hco, hce] at hcount
              simp only [List.length_cons] at hcount ⊢; omega⟩

/-- Equality of `==` tests with the operands swapped, for natural-number
keys. -/
theorem natBeqComm (a b : Nat) : (a == b) = (b == a) := by
  by_cases h : a = b
  · rw [h]
  · have h1 : (a == b) = false := by
      cases hab : a == b
      · rfl
      · exact absurd (eq_of_beq hab) h
    have h2 : (b == a) = false := by
      cases hba : b == a
      · rfl
      · exact absurd (eq_of_beq hba).symm h
    rw [h1, h2]

/-- The `definitions` dict in insertion order equals the spec-side
first-occurrence filter of the pending items relative to the keys already
present. -/
theorem collectDefs_acc (items : List (Nat × Item)) :
    ∀ acc : List (Nat × String),
      collectDefs items acc =
        acc ++ firstOccurrences (items.filter (fun p => !acc.any (fun q => q.1 == p.1))) := by
  induction items with
  | nil => intro acc; simp [collectDefs, firstOccurrences]
  | cons x rest ih =>
    intro acc
    obtain ⟨k, it⟩ := x
    by_cases h : acc.any (fun p => p.1 == k) = true
    · have : collectDefs ((k, it) :: rest) acc = collectDefs rest acc := by
        simp only [collectDefs, h, if_true]
      rw [this, ih acc]
      have hfil : ((k, it) :: rest).filter (fun p => !acc.any (fun q => q.1 == p.1)) =
          rest.filter (fun p => !acc.any (fun q => q.1 == p.1)) := by
        rw [List.filter_cons]
        simp [h]
      rw [hfil]
    · have h0 : acc.any (fun p => p.1 == k) = false := by
        cases hh : acc.any (fun p => p.1 == k)
        · rfl
        · exact absurd hh h
      have : collectDefs ((k, it) :: rest) acc = collectDefs rest (acc ++ [(k, itemText it)]) := by
        simp only [collectDefs, h0]
        rfl
      rw [this, ih (acc ++ [(k, itemText it)])]
      have hfil : ((k, it) :: rest).filter (fun p => !acc.any (fun q => q.1 == p.1)) =
          (k, it) :: rest.filter (fun p => !acc.any (fun q => q.1 == p.1)) := by
        rw [List.filter_cons]
        simp [h0]
      rw [hfil]
      simp only [firstOccurrences, List.append_assoc, List.cons_append, List.nil_append]
      have hfil2 : rest.filter (fun p => !(acc ++ [(k, itemText it)]).any (fun q => q.1 == p.1)) =
          (rest.filter (fun p => !acc.any (fun q => q.1 == p.1))).filter (fun p => !(p.1 == k)) := by
        rw [List.filter_filter]
        apply List.filter_congr
        intro p _
        simp only [List.any_append, List.any_cons, List.any_nil, Bool.or_false, Bool.not_or]
        rw [natBeqComm k p.1]
        exact Bool.and_comm _ _
      rw [hfil2]

/-- The `definitions` dict keeps exactly the first-yielded item of each
start offset, in first-encounter order. -/
theorem collectDefs_eq_firstOccurrences (items : List (Nat × Item)) :
    collectDefs items [] = firstOccurrences items := by
  rw [collectDefs_acc items []]
  simp

/-- Membership in an insertion is membership in the parts. -/
theorem mem_insertByKey {x y : Nat × String} :
    ∀ {l : List (Nat × String)}, y ∈ insertByKey x l → y = x ∨ y ∈ l := by
  intro l
  induction l with
  | nil => intro h; simpa [insertByKey] using h
  | cons z zs ih =>
    intro h
    simp only [insertByKey] at h
    by_cases hle : x.1 ≤ z.1
    · rw [if_pos hle] at h
      exact List.mem_cons.mp h
    · rw [if_neg hle] at h
      rcases List.mem_cons.mp h with h | h
      · exact Or.inr (List.mem_cons.mpr (Or.inl h))
      · rcases ih h with h | h
        · exact Or.inl h
        · exact Or.inr (List.mem_cons.mpr (Or.inr h))

/-- Inserting into a key-sorted list keeps it key-sorted. -/
theorem pairwise_insertByKey (x : Nat × String) :
    ∀ {l : List (Nat × String)}, List.Pairwise (fun a b => a.1 ≤ b.1) l →
      List.Pairwise (fun a b => a.1 ≤ b.1) (insertByKey x l) := by
  intro l
  induction l with
  | nil => intro _; simp [insertByKey]
  | cons y ys ih =>
    intro h
    rcases List.pairwise_cons.mp h with ⟨hy, hys⟩
    simp only [insertByKey]
    split
    · refine List.pairwise_cons.mpr ⟨?_, h⟩
      intro z hz
      rcases List.mem_cons.mp hz with rfl | hz
      · omega
      · have := hy z hz
        omega
    · refine List.pairwise_cons.mpr ⟨?_, ih hys⟩
      intro z hz
      rcases mem_insertByKey hz with rfl | hz
      · omega
      · exact hy z hz

/-- The emitted association list is sorted by key. -/
theorem pairwise_sortByKey (l : List (Nat × String)) :
    List.Pairwise (fun a b => a.1 ≤ b.1) (sortByKey l) := by
  induction l with
  | nil => simp [sortByKey]
  | cons x xs ih => exact pairwise_insertByKey x ih

/-! ## Claims -/

/-- C1, counterexample.  The claim says top-level text outside any open
directive frame is also scanned by every extractor and its matches are
emitted unguarded.  On `srcTop` the enum extractor finds two entities in
the top-level text (before the conditional block and after it), yet the
scan emits nothing at all: the region between the balanced block's opener
and its `#endif` is the only region ever handed to the extractors. -/
theorem claim_C1_counterexample :
    preprocess_c_source_code theClasses srcTop = ([], none)
    ∧ enum_extract srcTop 0 srcTop.length =
        [Entity.enumDef "E" "E" "A " 0 13, Entity.enumDef "F" "F" "B " 30 43] := by
  constructor
  · decide
  · decide

/-- C1, amended.  `preprocess_c_source_code` scans only the regions between
a popped frame's opening and closing directives; text outside every
directive frame is never scanned by any extractor.  In particular an input
whose directive scan finds no conditional directives produces no output at
all, whatever entities it contains. -/
theorem claim_C1_amended (src : List Char) (h : findDirectives src = []) :
    preprocess_c_source_code theClasses src = ([], none) := by
  unfold preprocess_c_source_code
  rw [h]
  rfl

/-- Witness for C1: the amended theorem applied to a directive-free input. -/
theorem claim_C1_witness :
    preprocess_c_source_code theClasses ("enum \x7b A \x7d E;\n".data) = ([], none) :=
  claim_C1_amended _ (by decide)

/-- C2, counterexample.  The claim says every `#ifdef X … #else … #endif`
pair produces emissions wrapped in `#ifdef X` / `#endif` guard lines and
their complements.  For a pair at the outermost level the stack is empty
after the pop, so `_yield_objects` sets both guard lines to the empty
string: the scan of `srcPair` yields the two branch entities between empty
guard lines, and no `#ifdef X` guard line is ever yielded. -/
theorem claim_C2_counterexample :
    preprocess_c_source_code theClasses srcPair =
      ([(0, Item.line ""),
        (9, Item.ent (Entity.enumDef "E" "E" "A " 9 22)),
        (23, Item.line ""),
        (23, Item.line ""),
        (29, Item.ent (Entity.enumDef "F" "F" "B " 29 42)),
        (43, Item.line "")], none)
    ∧ Item.line "#ifdef X" ∉ (preprocess_c_source_code theClasses srcPair).1.map Prod.snd := by
  constructor
  · decide
  · decide

/-- C2, amended.  When the `#ifdef X … #else … #endif` pair is enclosed in
at least one outer open frame, entities of the first branch are emitted
wrapped in `#ifdef X` / `#endif /* defined(X) */` guard lines, entities of
the second branch wrapped in the complementary `#ifndef X` /
`#endif /* !defined(X) */` guard lines, and each emission contains only the
entities found in its own branch (the trailing emission re-scans the outer
frame's whole region with empty guard lines, as its pop empties the
stack). -/
theorem claim_C2_amended :
    preprocess_c_source_code theClasses srcPairGuarded =
      ([(10, Item.line "#ifdef X"),
        (19, Item.ent (Entity.enumDef "E" "E" "A " 19 32)),
        (33, Item.line "#endif /* defined(X) */"),
        (33, Item.line "#ifndef X"),
        (39, Item.ent (Entity.enumDef "F" "F" "B " 39 52)),
        (53, Item.line "#endif /* !defined(X) */"),
        (0, Item.line ""),
        (19, Item.ent (Entity.enumDef "E" "E" "A " 19 32)),
        (39, Item.ent (Entity.enumDef "F" "F" "B " 39 52)),
        (60, Item.line "")], none) := by
  decide

/-- C3.  The claim (and the docstring of `preprocess_c_source_code`) says an
opener never closed by an `#endif` makes the scan fail with
`CondDirectiveNotMatch`; the code instead ends the scan with
`assert not stack`, which raises `AssertionError`, a different failure. -/
theorem claim_C3 :
    preprocess_c_source_code theClasses srcUnclosed = ([], some ScanError.assertionFailed)
    ∧ ScanError.assertionFailed ≠ ScanError.condDirectiveNotMatch := by
  constructor
  · decide
  · decide

/-- C4.  The frame pushed in place of a frame popped by an `#else` is
computed exactly as the spec's table says: an `if` frame with parameter P
becomes an `if` frame with parameter `!( P )`, an `ifdef` frame becomes an
`ifndef` frame with the same parameter, an `ifndef` frame becomes an
`ifdef` frame with the same parameter; and the scan loop pushes exactly
`elseReplacement` when a non-`endif` closer pops a frame. -/
theorem claim_C4 :
    (∀ (f : CondDirective) (s e : Nat),
        f.directive = "if" ∨ f.directive = "ifdef" ∨ f.directive = "ifndef" →
        elseReplacement f s e = elseComplementSpec f s e)
    ∧ (∀ (classes : List ExtractorFn) (src : List Char) (m : CondDirective)
        (rest : List CondDirective) (f : CondDirective) (stack2 : List CondDirective),
        isOpener m = false → ¬ m.directive = "endif" →
        scanLoop classes src (m :: rest) (f :: stack2) =
          (yieldObjects classes src f.directive f.param f.start f.stop m.start stack2.isEmpty ++
            (scanLoop classes src rest (elseReplacement f m.start m.stop :: stack2)).1,
           (scanLoop classes src rest (elseReplacement f m.start m.stop :: stack2)).2)) := by
  constructor
  · intro f s e h
    obtain ⟨d, p, fs, fe⟩ := f
    dsimp only at h
    rcases h with h | h | h <;> subst h <;> rfl
  · intro classes src m rest f stack2 h1 h2
    exact scanLoop_else classes src m rest f stack2 h1 h2

/-- Witness for C4: both parts at concrete inputs. -/
theorem claim_C4_witness :
    elseReplacement ⟨"ifdef", "X", 1, 2⟩ 5 7 = elseComplementSpec ⟨"ifdef", "X", 1, 2⟩ 5 7
    ∧ scanLoop [] [] (⟨"else", "", 3, 4⟩ :: []) (⟨"if", "P", 0, 1⟩ :: []) =
        (yieldObjects [] [] "if" "P" 0 1 3 true ++
          (scanLoop [] [] [] (elseReplacement ⟨"if", "P", 0, 1⟩ 3 4 :: [])).1,
         (scanLoop [] [] [] (elseReplacement ⟨"if", "P", 0, 1⟩ 3 4 :: [])).2) :=
  ⟨claim_C4.1 ⟨"ifdef", "X", 1, 2⟩ 5 7 (Or.inr (Or.inl rfl)),
   claim_C4.2 [] [] ⟨"else", "", 3, 4⟩ [] ⟨"if", "P", 0, 1⟩ [] (by decide) (by decide)⟩

/-- C5, counterexample.  The claim says every input containing an
`else`/`endif` at a point with no preceding unmatched opener fails with
`CondDirectiveNotMatch`.  On `srcAssertUnderflow` the second `#endif` does
underflow the stack, but the first `#endif`'s pop scans a region holding
`enum {X};`, whose `EnumDefinition.__init__` call fails its
`assert prefix_name or suffix_name`: the scan dies with `AssertionError`
before the underflow is ever reached, a different failure. -/
theorem claim_C5_counterexample :
    hasUnderflow (findDirectives srcAssertUnderflow)
    ∧ preprocess_c_source_code theClasses srcAssertUnderflow =
        ([], some ScanError.assertionFailed)
    ∧ ScanError.assertionFailed ≠ ScanError.condDirectiveNotMatch :=
  ⟨⟨[⟨"ifdef", "A", 0, 8⟩, ⟨"endif", "", 19, 25⟩], ⟨"endif", "", 26, 32⟩, [],
      by decide, by decide, by decide⟩,
   by decide, by decide⟩

/-- C5, amended.  Whenever the directive matches of the input contain an
`else` or `endif` at a point where the preceding matches leave no unmatched
opener, and no earlier pop's extraction raises an entity-constructor
assertion (no scanned region contains an enum match with both names empty
or an empty body), the scan fails with `CondDirectiveNotMatch` (the `raise`
of line 106). -/
theorem claim_C5 (src : List Char) (h1 : hasUnderflow (findDirectives src))
    (h2 : (scanLoop theClasses src (findDirectives src) []).1.any isAssertItem = false) :
    (preprocess_c_source_code theClasses src).2 = some ScanError.condDirectiveNotMatch := by
  obtain ⟨p, m, rest, heq, hm, hc⟩ := h1
  have h3 := scanLoop_underflow theClasses src (findDirectives src) []
    ⟨p, m, rest, heq, hm, by simpa using hc⟩
  unfold preprocess_c_source_code truncateAtAssert
  rw [h2]
  simpa using h3

/-- Witness for C5: a lone `#endif` (no extraction at all, hence no
assertion) fails with `CondDirectiveNotMatch`. -/
theorem claim_C5_witness :
    (preprocess_c_source_code theClasses ("#endif\n".data)).2 =
      some ScanError.condDirectiveNotMatch :=
  claim_C5 _ ⟨[], ⟨"endif", "", 0, 6⟩, [], by decide, by decide, by decide⟩ (by decide)

/-- C6.  For every yield sequence the emitted function texts are the
first-yielded text of each start offset (spec-side `firstOccurrences`),
arranged in ascending key order (`sortByKey` output is key-sorted), so the
output order matches ascending source-offset order whatever the extractor
registration order; and within one scope scan the instance list is the
first-registered extractor's matches followed by the second's, so an
exact-offset collision retains the first-registered extractor's match. -/
theorem claim_C6 :
    (∀ items : List (Nat × Item),
        generate_output items = (sortByKey (firstOccurrences items)).map Prod.snd)
    ∧ (∀ items : List (Nat × Item),
        List.Pairwise (fun a b => a.1 ≤ b.1) (sortByKey (collectDefs items [])))
    ∧ (∀ (c1 c2 : ExtractorFn) (src : List Char) (st en : Nat),
        classInstances [c1, c2] src st en = c1 src st en ++ c2 src st en) := by
  refine ⟨?_, ?_, ?_⟩
  · intro items
    unfold generate_output
    rw [collectDefs_eq_firstOccurrences]
  · intro items
    exact pairwise_sortByKey _
  · intro c1 c2 src st en
    simp [classInstances]

/-- C7, counterexample.  `remove_c_comments` is not idempotent: in
`//*c*/*b*/<CR>Q` the line comment fails on the bare carriage return, the
block comment `/*c*/` is removed, and the residue `/*b*/<CR>Q` loses a
second block comment on the next pass. -/
theorem claim_C7_counterexample :
    remove_c_comments (remove_c_comments ("//*c*/*b*/\rQ".data)) ≠
      remove_c_comments ("//*c*/*b*/\rQ".data) := by
  decide

/-- C7, amended.  Stripping is a no-op — and hence idempotent — on every
text that contains no comment-opener substring (no `/*` and no `//`);
idempotence for arbitrary text fails (see the counterexample, which needs a
line comment cut short by a bare carriage return). -/
theorem claim_C7_amended (t : List Char) (h : hasCommentOpener t = false) :
    remove_c_comments t = t ∧
      remove_c_comments (remove_c_comments t) = remove_c_comments t := by
  have h1 : remove_c_comments t = t := rcAux_id t.length t (Nat.le_refl _) h
  exact ⟨h1, by rw [h1]; exact h1⟩

/-- Witness for C7: comment-free text is untouched. -/
theorem claim_C7_witness :
    hasCommentOpener ("int x = 1;".data) = false ∧
      remove_c_comments ("int x = 1;".data) = "int x = 1;".data :=
  ⟨by decide, (claim_C7_amended ("int x = 1;".data) (by decide)).1⟩

/-- C8.  On `typedef enum { RED, GREEN, BLUE } Color;` the extractor finds
one enum named `Color` with body `RED, GREEN, BLUE `; its translation table
is exactly the three designated initialisers for RED, GREEN and BLUE in
declaration order, and the generated function's out-of-range / null-slot
branch returns the literal sentinel `UNKOWN_VAULE`. -/
theorem claim_C8 :
    enum_extract srcEnumExample 0 40 =
      [Entity.enumDef "Color" "Color" "RED, GREEN, BLUE " 8 40]
    ∧ enumTable "RED, GREEN, BLUE " =
        ["        [RED] = \"RED\",",
         "        [GREEN] = \"GREEN\",",
         "        [BLUE] = \"BLUE\","]
    ∧ generate_translation_function "Color" "Color" "RED, GREEN, BLUE " =
        "const char *Color_str( Color in )\n\x7b\n    const char * in_to_str[]=\n    \x7b\n        [RED] = \"RED\",\n        [GREEN] = \"GREEN\",\n        [BLUE] = \"BLUE\",\n    \x7d;\n\n    if( in > ( sizeof( in_to_str )/sizeof( in_to_str[0]) - 1 ) ||\n        in_to_str[ in ] == NULL )\n    \x7b\n        return \"UNKOWN_VAULE\";\n    \x7d\n    return in_to_str[ in ];\n\x7d\n" := by
  refine ⟨by decide, by decide, by decide⟩

/-- C9.  All signature-algorithm defines found in one region are merged
into a single entity (the extractor never yields more than one entity per
region); on the example region with `…_FOO 0x01` and `…_BAR_BAZ 0x02` the
single entity carries both names and the generated switch has one case per
macro name literal returning the lowercased suffix (`"foo"`, `"bar_baz"`),
falling through to the literal sentinel `UNKOWN`. -/
theorem claim_C9 :
    (∀ (src : List Char) (st en : Nat), (sig_extract src st en).length ≤ 1)
    ∧ sig_extract srcSigExample 0 76 =
        [Entity.sigDef ["MBEDTLS_TLS1_3_SIG_FOO", "MBEDTLS_TLS1_3_SIG_BAR_BAZ"] 0 35]
    ∧ sigGenerate ["MBEDTLS_TLS1_3_SIG_FOO", "MBEDTLS_TLS1_3_SIG_BAR_BAZ"] =
        "const char *mbedtls_ssl_sig_alg_to_str( uint16_t in )\n\x7b\n    switch( in )\n    \x7b\n\tcase MBEDTLS_TLS1_3_SIG_FOO:\n\t    return \"foo\";\n\tcase MBEDTLS_TLS1_3_SIG_BAR_BAZ:\n\t    return \"bar_baz\";\n    \x7d;\n\n    return \"UNKOWN\";\n\x7d" := by
  refine ⟨?_, by decide, by decide⟩
  intro src st en
  simp only [sig_extract]
  split <;> simp

/-- C10.  On an enum nested under three directive frames the scan yields
the entity once per enclosing frame (three times, innermost pop first), all
at the same start offset 28; the emitter's first-wins per-offset
deduplication retains the emission from the innermost scope, and the guard
lines, keyed at their directive offsets, sort into a correctly nested guard
structure around the single retained entity (the outermost frame's pop
leaves an empty stack, so its guard lines are empty strings). -/
theorem claim_C10 :
    preprocess_c_source_code theClasses srcNested =
      ([(19, Item.line "#ifdef B"),
        (28, Item.ent nestedEnum),
        (42, Item.line "#endif /* defined(B) */"),
        (10, Item.line "#ifdef A"),
        (28, Item.ent nestedEnum),
        (49, Item.line "#endif /* defined(A) */"),
        (0, Item.line ""),
        (28, Item.ent nestedEnum),
        (56, Item.line "")], none)
    ∧ (preprocess_c_source_code theClasses srcNested).1.countP (fun p => p.1 == 28) = 3
    ∧ generate_output (preprocess_c_source_code theClasses srcNested).1 =
        ["", "#ifdef A", "#ifdef B", entityText nestedEnum,
         "#endif /* defined(B) */", "#endif /* defined(A) */", ""] := by
  refine ⟨by decide, by decide, by decide⟩

end SslDebugHelpers
